import Mathlib

/-!
Verification of the `publishOps` space-routing publish protocol.

Shallow embedding of `src/functions.ts` from the geo-sdk-tutorial repository.
Every external call made by the router (wallet resolution, registry reads,
GraphQL queries, IPFS publishers, transaction submission) is a field of an
`Env` record returning `Except String` values: a `.error` models the call
throwing, `.ok` its returned value.  The router itself is a pure, executable
Lean function over that environment.  In addition to the `PublishResult`
envelope that the TypeScript function returns, the embedding returns the
list of effect events it performed, in order, so that claims about how many
transactions were submitted and which publisher was invoked are statable.
-/

namespace GeoSdk

/-- Wallet client, reduced to the data the router reads from it:
`walletClient.account!.address`. -/
structure Wallet where
  address : String
deriving Repr, DecidableEq

/-- One entry of `membersList` / `editorsList` in the space query response:
`{ memberSpaceId }`. -/
structure Membership where
  memberSpaceId : String
deriving Repr, DecidableEq

/-- The space object returned by the GraphQL query
`space(id: ...) { type address membersList { memberSpaceId } editorsList { memberSpaceId } }`.
`membersList`/`editorsList` are `Option` because GraphQL may return `null`
for them (the source guards with `|| []`). -/
structure SpaceInfo where
  type : String
  address : String
  membersList : Option (List Membership)
  editorsList : Option (List Membership)
deriving Repr, DecidableEq

/-- One entry of the reverse lookup `spaces(filter: { address ... }) { id type }`. -/
structure SpaceRef where
  id : String
  type : String
deriving Repr, DecidableEq

/-- What `personalSpace.publishEdit` / `daoSpace.proposeEdit` return:
`{ cid, editId, to, calldata }` (`to` is a Lean keyword, so it is named
`toAddr` here). -/
structure EditCall where
  cid : String
  editId : String
  toAddr : String
  calldata : String
deriving Repr, DecidableEq

/-- One result of the GraphQL `search(query: ..., first: 5) { id name }` query.
`name` is `Option` because the source reads it with `e.name?.toLowerCase()`. -/
structure SearchResult where
  id : String
  name : Option String
deriving Repr, DecidableEq

/-- An operation; the router never inspects it, only forwards it. The fields
mirror what `getCreatedEntityIds` reads (`op.type`, `op.id`). -/
structure Op where
  type : String
  id : String
deriving Repr, DecidableEq

/-- The router's output envelope (`PublishResult` in `src/functions.ts`).
Optional TypeScript fields become `Option String`. -/
structure PublishResult where
  success : Bool
  editId : Option String
  cid : Option String
  transactionHash : Option String
  spaceId : Option String
  error : Option String
deriving Repr, DecidableEq

/-- The router's input (`PublishConfig`).  `useSmartAccount` and `network`
are `Option` because the source destructures them with defaults
(`useSmartAccount = true`, `network = "TESTNET"`); `spaceId` is the optional
target space. -/
structure PublishConfig where
  ops : List Op
  editName : String
  privateKey : String
  useSmartAccount : Option Bool
  network : Option String
  spaceId : Option String
deriving Repr, DecidableEq

/-- Effect events the router performs, tagged by call site:
* `createSpaceSubmit` — the `walletClient.sendTransaction` inside
  `ensurePersonalSpace` (space-creation transaction);
* `publishSubmit` — the `walletClient.sendTransaction` of step 5
  (publish-edit transaction);
* `spaceLookup` — the GraphQL space-by-id query of step 3;
* `reverseLookup` — the GraphQL space-by-address query of the DAO branch;
* `personalPublish` — the call to `personalSpace.publishEdit`;
* `daoPublish` — the call to `daoSpace.proposeEdit`. -/
inductive Event where
  | createSpaceSubmit
  | publishSubmit
  | spaceLookup
  | reverseLookup
  | personalPublish
  | daoPublish
deriving Repr, DecidableEq

/-- The external world the router calls into.  Each field is one external
operation consumed by `src/functions.ts`; `Except.error m` models the call
throwing an error with message `m`. -/
structure Env where
  getSmartAccountWalletClient : String → Except String Wallet
  getWalletClient : String → Except String Wallet
  hasSpace : String → Except String Bool
  createSpaceCall : String × String
  sendTransaction : String → String → String → Except String String
  waitForTransactionReceipt : String → Except String Unit
  addressToSpaceId : String → Except String String
  spaceQuery : String → Except String (Option SpaceInfo)
  reverseQuery : String → Except String (Option (List SpaceRef))
  publishEdit : String → String → List Op → String → String → Except String EditCall
  proposeEdit : String → List Op → String → String → String → String → String → Except String EditCall
  search : String → Nat → Except String (Option (List SearchResult))

/-- Models `spaceIdHex.slice(2, 34).toLowerCase()`: bytes16 hex to dashless UUID. -/
def hexToSpaceId (hex : String) : String :=
  ((hex.drop 2).take 32).toLower

/-- The registry read at the end of `ensurePersonalSpace` (and `getSpaceId`):
`addressToSpaceId` followed by the hex-to-UUID conversion. -/
def lookupSpaceIdFromRegistry (env : Env) (address : String) : Except String String :=
  match env.addressToSpaceId address with
  | .error m => .error m
  | .ok hex => .ok (hexToSpaceId hex)

/-- Models `ensurePersonalSpace(address, walletClient)` from `src/functions.ts`:
check `personalSpace.hasSpace`; if absent, submit the `createSpace` call and
await its receipt; then read the space id from the registry. -/
def ensurePersonalSpace (env : Env) (address : String) :
    Except String String × List Event :=
  match env.hasSpace address with
  | .error m => (.error m, [])
  | .ok hasSpace =>
    if !hasSpace then
      match env.sendTransaction address env.createSpaceCall.1 env.createSpaceCall.2 with
      | .error m => (.error m, [Event.createSpaceSubmit])
      | .ok txHash =>
        match env.waitForTransactionReceipt txHash with
        | .error m => (.error m, [Event.createSpaceSubmit])
        | .ok _ => (lookupSpaceIdFromRegistry env address, [Event.createSpaceSubmit])
    else
      (lookupSpaceIdFromRegistry env address, [])

/-- Step 2 of `publishOps`:
`config.spaceId || (await ensurePersonalSpace(address, walletClient))`.
JavaScript `||` treats the empty string as falsy, so `some ""` also falls
through to `ensurePersonalSpace`. -/
def resolveSpaceId (env : Env) (spaceIdOpt : Option String) (address : String) :
    Except String String × List Event :=
  match spaceIdOpt with
  | some s => if s = "" then ensurePersonalSpace env address else (.ok s, [])
  | none => ensurePersonalSpace env address

/-- Step 1 of `publishOps`: `useSmartAccount ? getSmartAccountWalletClient : getWalletClient`. -/
def resolveWallet (env : Env) (useSmartAccount : Bool) (privateKey : String) :
    Except String Wallet :=
  if useSmartAccount then env.getSmartAccountWalletClient privateKey
  else env.getWalletClient privateKey

/-- The DAO (non-`"PERSONAL"`) branch of step 4: reverse-lookup the caller's
personal space, check membership in `membersList || []` concatenated with
`editorsList || []`, then call `daoSpace.proposeEdit`.  The returned trace
covers only this branch's events. -/
def daoBranch (env : Env) (editName : String) (ops : List Op) (address spaceId : String)
    (space : SpaceInfo) (network : String) : Except String EditCall × List Event :=
  match env.reverseQuery address with
  | .error m => (.error m, [Event.reverseLookup])
  | .ok spacesOpt =>
    match (spacesOpt.getD []).find? (fun s => s.type == "PERSONAL") with
    | none => (.error ("No personal space found for wallet " ++ address), [Event.reverseLookup])
    | some callerSpace =>
      let callerSpaceId := callerSpace.id
      let members := space.membersList.getD []
      let editors := space.editorsList.getD []
      let allCandidates := members ++ editors
      let isMemberOrEditor := allCandidates.any (fun m => m.memberSpaceId == callerSpaceId)
      if !isMemberOrEditor then
        (.error ("Your personal space (" ++ callerSpaceId ++
          ") is not a member or editor of DAO space " ++ spaceId),
         [Event.reverseLookup])
      else
        (env.proposeEdit editName ops callerSpaceId
          ("0x" ++ callerSpaceId) ("0x" ++ spaceId) space.address network,
         [Event.reverseLookup, Event.daoPublish])

/-- Step 4 of `publishOps`: branch on `spaceType === "PERSONAL"`. -/
def publishBranch (env : Env) (editName : String) (ops : List Op) (address spaceId : String)
    (space : SpaceInfo) (network : String) : Except String EditCall × List Event :=
  if space.type = "PERSONAL" then
    (env.publishEdit editName spaceId ops address network,
     [Event.personalPublish])
  else
    daoBranch env editName ops address spaceId space network

/-- Steps 1-4 of the `try` block of `publishOps`: everything up to (not
including) the step-5 transaction submission.  On success it returns the
edit call, the resolved space id and the wallet address. -/
def publishStage (env : Env) (config : PublishConfig) :
    Except String (EditCall × String × String) × List Event :=
  match resolveWallet env (config.useSmartAccount.getD true) config.privateKey with
  | .error m => (.error m, [])
  | .ok walletClient =>
    match resolveSpaceId env config.spaceId walletClient.address with
    | (.error m, tr1) => (.error m, tr1)
    | (.ok spaceId, tr1) =>
      match env.spaceQuery spaceId with
      | .error m => (.error m, tr1 ++ [Event.spaceLookup])
      | .ok none => (.error ("Space " ++ spaceId ++ " not found"), tr1 ++ [Event.spaceLookup])
      | .ok (some space) =>
        match publishBranch env config.editName config.ops walletClient.address spaceId space
            (config.network.getD "TESTNET") with
        | (.error m, trb) => (.error m, tr1 ++ [Event.spaceLookup] ++ trb)
        | (.ok edit, trb) =>
          (.ok (edit, spaceId, walletClient.address), tr1 ++ [Event.spaceLookup] ++ trb)

/-- The whole `try` block of `publishOps`: steps 1-4 (`publishStage`), then
step 5: submit the edit call as a transaction and await its receipt.  On
success it yields `(editId, cid, txHash, spaceId)`. -/
def publishOpsTry (env : Env) (config : PublishConfig) :
    Except String (String × String × String × String) × List Event :=
  match publishStage env config with
  | (.error m, tr) => (.error m, tr)
  | (.ok (edit, spaceId, address), tr) =>
    match env.sendTransaction address edit.toAddr edit.calldata with
    | .error m => (.error m, tr ++ [Event.publishSubmit])
    | .ok txHash =>
      match env.waitForTransactionReceipt txHash with
      | .error m => (.error m, tr ++ [Event.publishSubmit])
      | .ok _ => (.ok (edit.editId, edit.cid, txHash, spaceId), tr ++ [Event.publishSubmit])

/-- Models `publishOps(config)`: run the `try` block; shape the result envelope
exactly as the source's `return`/`catch` do.  The second component is the
event trace (instrumentation; not part of the TypeScript return value). -/
def publishOps (env : Env) (config : PublishConfig) : PublishResult × List Event :=
  match publishOpsTry env config with
  | (.ok (editId, cid, txHash, spaceId), tr) =>
    ({ success := true, editId := some editId, cid := some cid,
       transactionHash := some txHash, spaceId := some spaceId, error := none }, tr)
  | (.error m, tr) =>
    ({ success := false, editId := none, cid := none,
       transactionHash := none, spaceId := none, error := some m }, tr)

/-- The case-insensitive name match of the duplicate-check helpers:
`e.name?.toLowerCase() === name.toLowerCase()`. -/
def nameMatches (name : String) (e : SearchResult) : Bool :=
  e.name.map String.toLower == some name.toLower

/-- Models `queryEntityByName`: search (first 5), take `data?.search ?? []`, return
the id of the first case-insensitive exact match, `null` otherwise; any
thrown error is caught and becomes `null`. -/
def queryEntityByName (env : Env) (name : String) : Option String :=
  match env.search name 5 with
  | .error _ => none
  | .ok found =>
    let entities := found.getD []
    match entities.find? (nameMatches name) with
    | some exact => some exact.id
    | none => none

/-- Models `queryPropertyByName`: textually identical body to `queryEntityByName`. -/
def queryPropertyByName (env : Env) (name : String) : Option String :=
  match env.search name 5 with
  | .error _ => none
  | .ok found =>
    let entities := found.getD []
    match entities.find? (nameMatches name) with
    | some exact => some exact.id
    | none => none

/-- Models `queryTypeByName`: textually identical body to `queryEntityByName`. -/
def queryTypeByName (env : Env) (name : String) : Option String :=
  match env.search name 5 with
  | .error _ => none
  | .ok found =>
    let entities := found.getD []
    match entities.find? (nameMatches name) with
    | some exact => some exact.id
    | none => none

/-- Number of occurrences of event `e` in a trace. -/
def countEvent (tr : List Event) (e : Event) : Nat :=
  (tr.filter (fun x => x == e)).length

/-! ## Concrete environments and configurations

Used to instantiate the theorems below at explicit inputs. -/

def wallet0 : Wallet := ⟨"0xW"⟩

def editCall0 : EditCall := ⟨"cid0", "edit0", "toP", "cdP"⟩

def spaceP : SpaceInfo := ⟨"PERSONAL", "0xSP", none, none⟩

def spaceD : SpaceInfo := ⟨"DAO", "0xSD", some [⟨"m1"⟩], some [⟨"e1"⟩]⟩

def spaceDnoLists : SpaceInfo := ⟨"DAO", "0xSD", none, none⟩

/-- Happy-path environment: no personal space yet (so one is created), the
target space is personal, every external call succeeds. -/
def envBase : Env where
  getSmartAccountWalletClient := fun _ => .ok wallet0
  getWalletClient := fun _ => .ok wallet0
  hasSpace := fun _ => .ok false
  createSpaceCall := ("toC", "cdC")
  sendTransaction := fun _ _ _ => .ok "0xTX"
  waitForTransactionReceipt := fun _ => .ok ()
  addressToSpaceId := fun _ => .ok "0xAABBCCDDEEFF00112233445566778899"
  spaceQuery := fun _ => .ok (some spaceP)
  reverseQuery := fun _ => .ok (some [⟨"caller1", "PERSONAL"⟩])
  publishEdit := fun _ _ _ _ _ => .ok editCall0
  proposeEdit := fun _ _ _ _ _ _ _ => .ok editCall0
  search := fun _ _ => .ok (some [])

/-- Like `envBase` but the space-by-id GraphQL query throws. -/
def envLookupFail : Env := { envBase with spaceQuery := fun _ => .error "api down" }

/-- Like `envBase` but the space-by-id query returns no space. -/
def envNoSpace : Env := { envBase with spaceQuery := fun _ => .ok none }

/-- Caller already has a personal space; target is a DAO space whose
member/editor lists do not contain the caller's space id. -/
def envDaoUnauth : Env :=
  { envBase with
      hasSpace := fun _ => .ok true
      spaceQuery := fun _ => .ok (some spaceD) }

/-- Target is a DAO space whose member/editor lists are both `null`. -/
def envDaoNoLists : Env :=
  { envBase with
      hasSpace := fun _ => .ok true
      spaceQuery := fun _ => .ok (some spaceDnoLists) }

/-- A DAO space with `membersList` `null` but the caller present in
`editorsList`. -/
def spaceDhalf : SpaceInfo := ⟨"DAO", "0xSD", none, some [⟨"caller1"⟩]⟩

/-- Target is a DAO space with a `null` members list whose editors list
authorizes the caller. -/
def envDaoHalfAuth : Env :=
  { envBase with
      hasSpace := fun _ => .ok true
      spaceQuery := fun _ => .ok (some spaceDhalf) }

/-- The same environment with the space's missing membership lists replaced
by explicit empty lists (`membersList || []` / `editorsList || []`) in the
directory's answer for `sid`. -/
def withDefaultedLists (env : Env) (sid : String) (space : SpaceInfo) : Env :=
  { env with
      spaceQuery := fun s =>
        if s = sid then
          Except.ok (some { space with
            membersList := some (space.membersList.getD [])
            editorsList := some (space.editorsList.getD []) })
        else env.spaceQuery s }

/-- Caller already has a personal space; target space is personal. -/
def envPersonalExisting : Env := { envBase with hasSpace := fun _ => .ok true }

/-- Like `envBase` but the search API throws. -/
def envSearchFail : Env := { envBase with search := fun _ _ => .error "down" }

/-- Like `envBase` but the search API returns one hit named "Alice". -/
def envSearchHit : Env :=
  { envBase with search := fun _ _ => .ok (some [⟨"id1", some "Alice"⟩]) }

def cfg0 : PublishConfig :=
  { ops := [], editName := "edit", privateKey := "pk",
    useSmartAccount := none, network := none, spaceId := none }

def cfgSid : PublishConfig := { cfg0 with spaceId := some "sidX" }

def cfgEmptySid : PublishConfig := { cfg0 with spaceId := some "" }

/-! ## Trace-counting helper lemmas -/

theorem countEvent_nil (e : Event) : countEvent [] e = 0 := rfl

theorem countEvent_append (a b : List Event) (e : Event) :
    countEvent (a ++ b) e = countEvent a e + countEvent b e := by
  simp [countEvent, List.filter_append]

theorem countEvent_singleton (x e : Event) :
    countEvent [x] e = if x == e then 1 else 0 := by
  simp only [countEvent, List.filter]
  cases h : (x == e) <;> simp

theorem countEvent_pair (x y e : Event) :
    countEvent [x, y] e = (if x == e then 1 else 0) + (if y == e then 1 else 0) := by
  have h : ([x, y] : List Event) = [x] ++ [y] := rfl
  rw [h, countEvent_append, countEvent_singleton, countEvent_singleton]

theorem countEvent_cons (x : Event) (l : List Event) (e : Event) :
    countEvent (x :: l) e = (if x == e then 1 else 0) + countEvent l e := by
  have h : (x :: l : List Event) = [x] ++ l := rfl
  rw [h, countEvent_append, countEvent_singleton]

/-! ## Structural lemmas about the stages -/

/-- The trace of `ensurePersonalSpace` is empty or a single creation event. -/
theorem ensurePersonalSpace_trace_cases (env : Env) (a : String) :
    (ensurePersonalSpace env a).2 = [] ∨
    (ensurePersonalSpace env a).2 = [Event.createSpaceSubmit] := by
  unfold ensurePersonalSpace
  cases h : env.hasSpace a with
  | error m => simp [h]
  | ok b =>
    cases b with
    | false =>
      cases h2 : env.sendTransaction a env.createSpaceCall.1 env.createSpaceCall.2 with
      | error m => simp [h, h2]
      | ok tx =>
        cases h3 : env.waitForTransactionReceipt tx with
        | error m => simp [h, h2, h3]
        | ok u => simp [h, h2, h3]
    | true => simp [h]

/-- The trace of `resolveSpaceId` is empty or a single creation event. -/
theorem resolveSpaceId_trace_cases (env : Env) (sid : Option String) (a : String) :
    (resolveSpaceId env sid a).2 = [] ∨
    (resolveSpaceId env sid a).2 = [Event.createSpaceSubmit] := by
  unfold resolveSpaceId
  cases sid with
  | none => exact ensurePersonalSpace_trace_cases env a
  | some s =>
    by_cases hs : s = ""
    · simpa [hs] using ensurePersonalSpace_trace_cases env a
    · simp [hs]

/-- The trace of the step-4 branch, by case. -/
theorem publishBranch_trace_cases (env : Env) (editName : String) (ops : List Op)
    (address spaceId : String) (space : SpaceInfo) (network : String) :
    (publishBranch env editName ops address spaceId space network).2 = [Event.personalPublish] ∨
    (publishBranch env editName ops address spaceId space network).2 = [Event.reverseLookup] ∨
    (publishBranch env editName ops address spaceId space network).2 =
      [Event.reverseLookup, Event.daoPublish] := by
  unfold publishBranch daoBranch
  by_cases hty : space.type = "PERSONAL"
  · simp [hty]
  · simp only [if_neg hty]
    cases h : env.reverseQuery address with
    | error m => simp [h]
    | ok spacesOpt =>
      cases h2 : (spacesOpt.getD []).find? (fun s => s.type == "PERSONAL") with
      | none => simp [h, h2]
      | some callerSpace =>
        simp only [h, h2]
        split <;> simp

/-- The trace of `publishOps` is the trace of its `try` block. -/
theorem publishOps_trace (env : Env) (config : PublishConfig) :
    (publishOps env config).2 = (publishOpsTry env config).2 := by
  unfold publishOps
  rcases h : publishOpsTry env config with ⟨e, tr⟩
  rcases e with m | ⟨a, b, c, d⟩ <;> simp [h]

/-- Steps 1-4 submit no publish transaction and at most one creation
transaction. -/
theorem publishStage_counts (env : Env) (config : PublishConfig) :
    countEvent (publishStage env config).2 Event.publishSubmit = 0 ∧
    countEvent (publishStage env config).2 Event.createSpaceSubmit ≤ 1 := by
  unfold publishStage
  cases hw : resolveWallet env (config.useSmartAccount.getD true) config.privateKey with
  | error m => simp [hw, countEvent_nil]
  | ok w =>
    simp only [hw]
    rcases hrs : resolveSpaceId env config.spaceId w.address with ⟨se, tr1⟩
    have htr1 : tr1 = [] ∨ tr1 = [Event.createSpaceSubmit] := by
      have h0 := resolveSpaceId_trace_cases env config.spaceId w.address
      rw [hrs] at h0; exact h0
    have htr1p : countEvent tr1 Event.publishSubmit = 0 := by
      rcases htr1 with h | h <;> simp [h, countEvent_nil, countEvent_singleton]
    have htr1c : countEvent tr1 Event.createSpaceSubmit ≤ 1 := by
      rcases htr1 with h | h <;> simp [h, countEvent_nil, countEvent_singleton]
    cases se with
    | error m => exact ⟨htr1p, htr1c⟩
    | ok spaceId =>
      cases hq : env.spaceQuery spaceId with
      | error m =>
        simp [hq, countEvent_append, countEvent_singleton, htr1p, htr1c]
      | ok spOpt =>
        cases spOpt with
        | none =>
          simp [hq, countEvent_append, countEvent_singleton, htr1p, htr1c]
        | some space =>
          simp only [hq]
          rcases hb : publishBranch env config.editName config.ops w.address spaceId space
              (config.network.getD "TESTNET") with ⟨be, trb⟩
          have htrb : trb = [Event.personalPublish] ∨ trb = [Event.reverseLookup] ∨
              trb = [Event.reverseLookup, Event.daoPublish] := by
            have h0 := publishBranch_trace_cases env config.editName config.ops w.address
              spaceId space (config.network.getD "TESTNET")
            rw [hb] at h0; exact h0
          have htrbp : countEvent trb Event.publishSubmit = 0 := by
            rcases htrb with h | h | h <;>
              simp [h, countEvent_singleton, countEvent_pair]
          have htrbc : countEvent trb Event.createSpaceSubmit = 0 := by
            rcases htrb with h | h | h <;>
              simp [h, countEvent_singleton, countEvent_pair]
          cases be with
          | error m =>
            simp [countEvent_append, countEvent_singleton, countEvent_cons,
              htr1p, htr1c, htrbp, htrbc]
          | ok edit =>
            simp [countEvent_append, countEvent_singleton, countEvent_cons,
              htr1p, htr1c, htrbp, htrbc]

/-- The `try` block submits at most one publish transaction and at most one
creation transaction. -/
theorem publishOpsTry_counts (env : Env) (config : PublishConfig) :
    countEvent (publishOpsTry env config).2 Event.publishSubmit ≤ 1 ∧
    countEvent (publishOpsTry env config).2 Event.createSpaceSubmit ≤ 1 := by
  obtain ⟨hp, hc⟩ := publishStage_counts env config
  unfold publishOpsTry
  rcases hs : publishStage env config with ⟨se, tr⟩
  rw [hs] at hp hc
  cases se with
  | error m => exact ⟨by simp [hp], hc⟩
  | ok d =>
    rcases d with ⟨edit, spaceId, address⟩
    dsimp only
    have hgoal : countEvent (tr ++ [Event.publishSubmit]) Event.publishSubmit ≤ 1 ∧
        countEvent (tr ++ [Event.publishSubmit]) Event.createSpaceSubmit ≤ 1 := by
      rw [countEvent_append, countEvent_append, countEvent_singleton, countEvent_singleton]
      constructor
      · simp [hp]
      · simpa using hc
    cases h2 : env.sendTransaction address edit.toAddr edit.calldata with
    | error m => exact hgoal
    | ok tx =>
      dsimp only
      cases h3 : env.waitForTransactionReceipt tx with
      | error m => exact hgoal
      | ok u => exact hgoal

/-- When steps 1-4 fail, the `try` block fails with the same message and
performs no further effect. -/
theorem publishOpsTry_stage_error (env : Env) (config : PublishConfig) (m : String)
    (h : (publishStage env config).1 = Except.error m) :
    publishOpsTry env config = (Except.error m, (publishStage env config).2) := by
  unfold publishOpsTry
  rcases hs : publishStage env config with ⟨se, tr⟩
  rw [hs] at h
  simp at h
  subst h
  simp

/-- The trace of the DAO branch alone, by case. -/
theorem daoBranch_trace_cases (env : Env) (editName : String) (ops : List Op)
    (address spaceId : String) (space : SpaceInfo) (network : String) :
    (daoBranch env editName ops address spaceId space network).2 = [Event.reverseLookup] ∨
    (daoBranch env editName ops address spaceId space network).2 =
      [Event.reverseLookup, Event.daoPublish] := by
  unfold daoBranch
  cases h : env.reverseQuery address with
  | error m => simp [h]
  | ok spacesOpt =>
    cases h2 : (spacesOpt.getD []).find? (fun s => s.type == "PERSONAL") with
    | none => simp [h, h2]
    | some callerSpace =>
      simp only [h, h2]
      split <;> simp

/-- Step 5 only ever adds `publishSubmit` events: counts of every other event
agree between the `try` block and steps 1-4. -/
theorem publishOpsTry_trace_counts (env : Env) (config : PublishConfig) (e : Event)
    (he : e ≠ Event.publishSubmit) :
    countEvent (publishOpsTry env config).2 e = countEvent (publishStage env config).2 e := by
  unfold publishOpsTry
  rcases hs : publishStage env config with ⟨se, tr⟩
  cases se with
  | error m => rfl
  | ok d =>
    rcases d with ⟨edit, spaceId, address⟩
    dsimp only
    have hne : (Event.publishSubmit == e) = false := by
      cases e <;> simp_all
    have hx : countEvent (tr ++ [Event.publishSubmit]) e = countEvent tr e := by
      rw [countEvent_append, countEvent_singleton, hne]
      simp
    cases h2 : env.sendTransaction address edit.toAddr edit.calldata with
    | error m => exact hx
    | ok tx =>
      dsimp only
      cases h3 : env.waitForTransactionReceipt tx with
      | error m => exact hx
      | ok u => exact hx

/-- Extending a containment on the left. -/
theorem contains_extend_left {α : Type} (s : List α) {l m : List α}
    (h : l <:+: m) : l <:+: s ++ m := by
  obtain ⟨u, v, huv⟩ := h
  exact ⟨s ++ u, v, by rw [← huv]; simp⟩

/-- Extending a containment on the right. -/
theorem contains_extend_right {α : Type} {l m : List α} (t : List α)
    (h : l <:+: m) : l <:+: m ++ t := by
  obtain ⟨u, v, huv⟩ := h
  exact ⟨u, v ++ t, by rw [← huv]; simp⟩

/-- The DAO branch rejects a caller whose personal-space id is in neither
membership list, with the authorization error and no DAO publish. -/
theorem daoBranch_unauthorized (env : Env) (editName : String) (ops : List Op)
    (address spaceId : String) (space : SpaceInfo) (network : String)
    (spacesOpt : Option (List SpaceRef)) (callerSpace : SpaceRef)
    (hrev : env.reverseQuery address = Except.ok spacesOpt)
    (hfind : (spacesOpt.getD []).find? (fun s => s.type == "PERSONAL") = some callerSpace)
    (hnotmem : callerSpace.id ∉
      ((space.membersList.getD []) ++ (space.editorsList.getD [])).map Membership.memberSpaceId) :
    daoBranch env editName ops address spaceId space network =
      (Except.error ("Your personal space (" ++ callerSpace.id ++
        ") is not a member or editor of DAO space " ++ spaceId),
       [Event.reverseLookup]) := by
  unfold daoBranch
  simp only [hrev, hfind]
  have hany : ((space.membersList.getD [] ++ space.editorsList.getD []).any
      (fun m => m.memberSpaceId == callerSpace.id)) = false := by
    rw [List.any_eq_false]
    intro x hx h
    rw [beq_iff_eq] at h
    exact hnotmem (h ▸ List.mem_map_of_mem Membership.memberSpaceId hx)
  simp [hany]

/-- Shared conclusion for the DAO authorization-failure claims: under the
reach-the-DAO-branch hypotheses and a caller in neither list, `publishOps`
fails with the "not a member or editor" error and performs no DAO publish
and no publish transaction. -/
theorem publishOps_dao_reject_aux (env : Env) (config : PublishConfig)
    (w : Wallet) (sid : String) (tr1 : List Event) (space : SpaceInfo)
    (spacesOpt : Option (List SpaceRef)) (callerSpace : SpaceRef)
    (hw : resolveWallet env (config.useSmartAccount.getD true) config.privateKey = Except.ok w)
    (hs : resolveSpaceId env config.spaceId w.address = (Except.ok sid, tr1))
    (hq : env.spaceQuery sid = Except.ok (some space))
    (hty : space.type ≠ "PERSONAL")
    (hrev : env.reverseQuery w.address = Except.ok spacesOpt)
    (hfind : (spacesOpt.getD []).find? (fun s => s.type == "PERSONAL") = some callerSpace)
    (hnotmem : callerSpace.id ∉
      ((space.membersList.getD []) ++ (space.editorsList.getD [])).map Membership.memberSpaceId) :
    (publishOps env config).1.success = false ∧
    (∃ m, (publishOps env config).1.error = some m ∧
      ("not a member or editor").data <:+: m.data) ∧
    countEvent (publishOps env config).2 Event.daoPublish = 0 ∧
    countEvent (publishOps env config).2 Event.publishSubmit = 0 := by
  have hdb := daoBranch_unauthorized env config.editName config.ops w.address sid space
    (config.network.getD "TESTNET") spacesOpt callerSpace hrev hfind hnotmem
  have hstage : publishStage env config =
      (Except.error ("Your personal space (" ++ callerSpace.id ++
        ") is not a member or editor of DAO space " ++ sid),
       tr1 ++ [Event.spaceLookup] ++ [Event.reverseLookup]) := by
    unfold publishStage
    simp only [hw, hs, hq]
    unfold publishBranch
    rw [if_neg hty, hdb]
  have he := publishOpsTry_stage_error env config _ (by rw [hstage])
  have htr := publishOps_trace env config
  have htr1 : tr1 = [] ∨ tr1 = [Event.createSpaceSubmit] := by
    have h0 := resolveSpaceId_trace_cases env config.spaceId w.address
    rw [hs] at h0; exact h0
  have htrace : (publishOps env config).2 =
      tr1 ++ [Event.spaceLookup] ++ [Event.reverseLookup] := by
    rw [htr, he, hstage]
  refine ⟨?_, ⟨"Your personal space (" ++ callerSpace.id ++
      ") is not a member or editor of DAO space " ++ sid, ?_, ?_⟩, ?_, ?_⟩
  · unfold publishOps; rw [he]
  · unfold publishOps; rw [he]
  · have hc : ("not a member or editor").data <:+:
        (") is not a member or editor of DAO space ").data := by decide
    have h1 := contains_extend_right sid.data hc
    have h2 := contains_extend_left ("Your personal space (" ++ callerSpace.id).data h1
    simpa [String.data_append, List.append_assoc] using h2
  · rw [htrace]; rcases htr1 with h | h <;> (rw [h]; decide)
  · rw [htrace]; rcases htr1 with h | h <;> (rw [h]; decide)

/-- The DAO branch of a caller whose personal-space id is in the
concatenation of the two (defaulted) lists: it proceeds to the DAO publish. -/
theorem daoBranch_authorized (env : Env) (editName : String) (ops : List Op)
    (address spaceId : String) (space : SpaceInfo) (network : String)
    (spacesOpt : Option (List SpaceRef)) (callerSpace : SpaceRef)
    (hrev : env.reverseQuery address = Except.ok spacesOpt)
    (hfind : (spacesOpt.getD []).find? (fun s => s.type == "PERSONAL") = some callerSpace)
    (hmem : callerSpace.id ∈
      ((space.membersList.getD []) ++ (space.editorsList.getD [])).map Membership.memberSpaceId) :
    daoBranch env editName ops address spaceId space network =
      (env.proposeEdit editName ops callerSpace.id ("0x" ++ callerSpace.id)
        ("0x" ++ spaceId) space.address network,
       [Event.reverseLookup, Event.daoPublish]) := by
  unfold daoBranch
  simp only [hrev, hfind]
  have hany : ((space.membersList.getD [] ++ space.editorsList.getD []).any
      (fun m => m.memberSpaceId == callerSpace.id)) = true := by
    rw [List.any_eq_true]
    obtain ⟨x, hx, hxeq⟩ := List.mem_map.mp hmem
    exact ⟨x, hx, by rw [beq_iff_eq]; exact hxeq⟩
  simp [hany]

/-- Replacing the space's optional lists by their `getD []` defaults does not
change the step-4 branch. -/
theorem publishBranch_defaulted (env : Env) (sid : String) (space : SpaceInfo)
    (editName : String) (ops : List Op) (address : String) (network : String) :
    publishBranch (withDefaultedLists env sid space) editName ops address sid
      { space with membersList := some (space.membersList.getD [])
                   editorsList := some (space.editorsList.getD []) } network =
    publishBranch env editName ops address sid space network := rfl

/-- Answering the space lookup with the lists defaulted to explicit empty
lists does not change the call at all: same result, same trace. -/
theorem publishOps_defaulted_lists_eq (env : Env) (config : PublishConfig)
    (w : Wallet) (sid : String) (tr1 : List Event) (space : SpaceInfo)
    (hw : resolveWallet env (config.useSmartAccount.getD true) config.privateKey = Except.ok w)
    (hs : resolveSpaceId env config.spaceId w.address = (Except.ok sid, tr1))
    (hq : env.spaceQuery sid = Except.ok (some space)) :
    publishOps env config = publishOps (withDefaultedLists env sid space) config := by
  have hw2 : resolveWallet (withDefaultedLists env sid space)
      (config.useSmartAccount.getD true) config.privateKey = Except.ok w := hw
  have hs2 : resolveSpaceId (withDefaultedLists env sid space) config.spaceId w.address =
      (Except.ok sid, tr1) := hs
  have hq2 : (withDefaultedLists env sid space).spaceQuery sid =
      Except.ok (some { space with membersList := some (space.membersList.getD [])
                                   editorsList := some (space.editorsList.getD []) }) := by
    simp [withDefaultedLists]
  unfold publishOps publishOpsTry publishStage
  simp only [hw, hw2, hs, hs2, hq, hq2]
  rw [publishBranch_defaulted]
  rfl

/-- Inverting a successful `try` block: steps 1-4 succeeded and step 5
appended exactly one publish submission. -/
theorem publishOpsTry_ok_inversion (env : Env) (config : PublishConfig)
    (a b c d : String) (tr : List Event)
    (h : publishOpsTry env config = (Except.ok (a, b, c, d), tr)) :
    ∃ edit addr trs, publishStage env config = (Except.ok (edit, d, addr), trs) ∧
      tr = trs ++ [Event.publishSubmit] := by
  unfold publishOpsTry at h
  rcases hs : publishStage env config with ⟨se, trs⟩
  rw [hs] at h
  cases se with
  | error m => simp at h
  | ok dd =>
    rcases dd with ⟨edit, spaceId, address⟩
    dsimp only at h
    cases h2 : env.sendTransaction address edit.toAddr edit.calldata with
    | error m => rw [h2] at h; simp at h
    | ok tx =>
      rw [h2] at h
      dsimp only at h
      cases h3 : env.waitForTransactionReceipt tx with
      | error m => rw [h3] at h; simp at h
      | ok u =>
        rw [h3] at h
        dsimp only at h
        simp only [Prod.mk.injEq, Except.ok.injEq] at h
        obtain ⟨⟨he1, he2, he3, he4⟩, he5⟩ := h
        subst he4
        subst he5
        exact ⟨edit, address, trs, rfl, rfl⟩

/-- Inverting a successful `ensurePersonalSpace` when the wallet has no
space: exactly one creation submission happened and the returned id is the
registry lookup of the address. -/
theorem ensurePersonalSpace_ok_inversion (env : Env) (a : String) (sid : String)
    (tr : List Event) (hhs : env.hasSpace a = Except.ok false)
    (h : ensurePersonalSpace env a = (Except.ok sid, tr)) :
    tr = [Event.createSpaceSubmit] ∧
    ∃ hex, env.addressToSpaceId a = Except.ok hex ∧ sid = hexToSpaceId hex := by
  unfold ensurePersonalSpace at h
  rw [hhs] at h
  dsimp only at h
  rw [if_pos (by decide : (!false) = true)] at h
  cases h2 : env.sendTransaction a env.createSpaceCall.1 env.createSpaceCall.2 with
  | error m => rw [h2] at h; simp at h
  | ok tx =>
    rw [h2] at h
    dsimp only at h
    cases h3 : env.waitForTransactionReceipt tx with
    | error m => rw [h3] at h; simp at h
    | ok u =>
      rw [h3] at h
      dsimp only at h
      unfold lookupSpaceIdFromRegistry at h
      cases h4 : env.addressToSpaceId a with
      | error m => rw [h4] at h; simp at h
      | ok hex =>
        rw [h4] at h
        simp only [Prod.mk.injEq, Except.ok.injEq] at h
        exact ⟨h.2.symm, hex, rfl, h.1.symm⟩

/-- Inverting successful steps 1-4: the wallet resolved, the space id
resolved, the lookup succeeded, and the trace decomposes accordingly. -/
theorem publishStage_ok_inversion (env : Env) (config : PublishConfig)
    (edit : EditCall) (sid addr : String) (trs : List Event)
    (h : publishStage env config = (Except.ok (edit, sid, addr), trs)) :
    ∃ w tr1 trb,
      resolveWallet env (config.useSmartAccount.getD true) config.privateKey = Except.ok w ∧
      addr = w.address ∧
      resolveSpaceId env config.spaceId w.address = (Except.ok sid, tr1) ∧
      trs = tr1 ++ [Event.spaceLookup] ++ trb := by
  unfold publishStage at h
  cases hw : resolveWallet env (config.useSmartAccount.getD true) config.privateKey with
  | error m => rw [hw] at h; simp at h
  | ok w =>
    rw [hw] at h
    dsimp only at h
    rcases hrs : resolveSpaceId env config.spaceId w.address with ⟨se, tr1⟩
    rw [hrs] at h
    cases se with
    | error m => simp at h
    | ok sid2 =>
      dsimp only at h
      cases hq : env.spaceQuery sid2 with
      | error m => rw [hq] at h; simp at h
      | ok spOpt =>
        rw [hq] at h
        cases spOpt with
        | none => simp at h
        | some space =>
          dsimp only at h
          rcases hb : publishBranch env config.editName config.ops w.address sid2 space
              (config.network.getD "TESTNET") with ⟨be, trb⟩
          rw [hb] at h
          cases be with
          | error m => simp at h
          | ok edit2 =>
            dsimp only at h
            simp only [Prod.mk.injEq, Except.ok.injEq] at h
            obtain ⟨⟨he1, he2, he3⟩, he4⟩ := h
            subst he2
            subst he4
            exact ⟨w, tr1, trb, rfl, he3.symm, hrs, rfl⟩

/-! ## Claim theorems -/

/-- C1: `publishOps` never lets a failure escape its boundary: for every
environment and configuration, either some internal step failed with a
message `m` and the result is exactly the uniform `success:false` envelope
carrying `m`, or every step succeeded and the result has `success:true` and
no error. -/
theorem publishOps_catches_all_errors (env : Env) (config : PublishConfig) :
    (∃ m, (publishOpsTry env config).1 = Except.error m ∧
      (publishOps env config).1 =
        { success := false, editId := none, cid := none,
          transactionHash := none, spaceId := none, error := some m }) ∨
    (∃ d, (publishOpsTry env config).1 = Except.ok d ∧
      (publishOps env config).1.success = true ∧
      (publishOps env config).1.error = none) := by
  unfold publishOps
  rcases h : publishOpsTry env config with ⟨e, tr⟩
  rcases e with m | ⟨a, b, c, d⟩
  · exact Or.inl ⟨m, rfl, rfl⟩
  · exact Or.inr ⟨(a, b, c, d), rfl, rfl, rfl⟩

/-- C6: every `PublishResult` that `publishOps` returns populates exactly the
success fields (`editId`, `cid`, `transactionHash`, `spaceId`, no `error`)
when `success` is true, and exactly `error` (all other optional fields
absent) when `success` is false. -/
theorem publishResult_field_shape (env : Env) (config : PublishConfig) :
    ((publishOps env config).1.success = true ∧
      (publishOps env config).1.editId.isSome = true ∧
      (publishOps env config).1.cid.isSome = true ∧
      (publishOps env config).1.transactionHash.isSome = true ∧
      (publishOps env config).1.spaceId.isSome = true ∧
      (publishOps env config).1.error = none) ∨
    ((publishOps env config).1.success = false ∧
      (publishOps env config).1.error.isSome = true ∧
      (publishOps env config).1.editId = none ∧
      (publishOps env config).1.cid = none ∧
      (publishOps env config).1.transactionHash = none ∧
      (publishOps env config).1.spaceId = none) := by
  unfold publishOps
  rcases h : publishOpsTry env config with ⟨e, tr⟩
  rcases e with m | ⟨a, b, c, d⟩
  · exact Or.inr ⟨rfl, rfl, rfl, rfl, rfl, rfl⟩
  · exact Or.inl ⟨rfl, rfl, rfl, rfl, rfl, rfl⟩

/-- C2 is false as stated: on `envBase` with `cfg0` the invocation
auto-creates a personal space and then publishes, submitting two on-chain
transactions; moreover on `envLookupFail` with `cfg0` the invocation returns
`success:false` from a failure before step 5 even though the space-creation
transaction has already been submitted. -/
theorem publishOps_single_submission_cex :
    ¬ (countEvent (publishOps envBase cfg0).2 Event.createSpaceSubmit +
        countEvent (publishOps envBase cfg0).2 Event.publishSubmit ≤ 1) ∧
    ((publishOps envLookupFail cfg0).1.success = false ∧
      countEvent (publishOps envLookupFail cfg0).2 Event.createSpaceSubmit = 1) := by
  decide

/-- C2 (amended): per invocation, at most one publish-edit transaction and at
most one space-creation transaction are submitted; and whenever steps 1-4
fail (a failure before the step-5 transaction submission), the call returns
`success:false` and no publish-edit transaction has been submitted at all. -/
theorem publishOps_submission_discipline (env : Env) (config : PublishConfig) :
    countEvent (publishOps env config).2 Event.publishSubmit ≤ 1 ∧
    countEvent (publishOps env config).2 Event.createSpaceSubmit ≤ 1 ∧
    (∀ m, (publishStage env config).1 = Except.error m →
      (publishOps env config).1.success = false ∧
      countEvent (publishOps env config).2 Event.publishSubmit = 0) := by
  have htr := publishOps_trace env config
  obtain ⟨h1, h2⟩ := publishOpsTry_counts env config
  refine ⟨by rw [htr]; exact h1, by rw [htr]; exact h2, ?_⟩
  intro m hm
  have he := publishOpsTry_stage_error env config m hm
  constructor
  · unfold publishOps
    rw [he]
  · rw [htr, he]
    exact (publishStage_counts env config).1

/-- Witness for the amended C2: a concrete run whose space lookup throws
fails before step 5 and submits no publish transaction. -/
theorem publishOps_submission_discipline_witness :
    (publishOps envLookupFail cfg0).1.success = false ∧
    countEvent (publishOps envLookupFail cfg0).2 Event.publishSubmit = 0 :=
  (publishOps_submission_discipline envLookupFail cfg0).2.2 "api down" (by rfl)

/-- C8: supplying `spaceId` as the empty string behaves exactly as omitting
it (JavaScript `||` treats `""` as falsy): the invocation resolves — and if
necessary creates — the caller's personal space, with identical result and
trace to the `spaceId := none` invocation. -/
theorem publishOps_empty_spaceId (env : Env) (config : PublishConfig)
    (h : config.spaceId = some "") :
    publishOps env config = publishOps env { config with spaceId := none } := by
  unfold publishOps publishOpsTry publishStage
  rw [h]
  simp [resolveSpaceId]

/-- Witness for C8 at a concrete configuration with `spaceId = some ""`. -/
theorem publishOps_empty_spaceId_witness :
    publishOps envBase cfgEmptySid =
      publishOps envBase { cfgEmptySid with spaceId := none } :=
  publishOps_empty_spaceId envBase cfgEmptySid rfl

/-- C10: the three duplicate-check helpers never throw; when the underlying
search call fails they all return `none`; when it succeeds they return the id
of a returned result whose name matches the queried name case-insensitively
when one exists among the returned (first-five) results, and `none` when none
does. -/
theorem queryByName_total_spec (env : Env) (name : String) :
    ((∃ m, env.search name 5 = Except.error m) →
      queryEntityByName env name = none ∧ queryPropertyByName env name = none ∧
      queryTypeByName env name = none) ∧
    (∀ found, env.search name 5 = Except.ok found →
      ((∀ e ∈ found.getD [], nameMatches name e = false) →
        queryEntityByName env name = none ∧ queryPropertyByName env name = none ∧
        queryTypeByName env name = none) ∧
      ((∃ e ∈ found.getD [], nameMatches name e = true) →
        ∃ e ∈ found.getD [], nameMatches name e = true ∧
          queryEntityByName env name = some e.id ∧
          queryPropertyByName env name = some e.id ∧
          queryTypeByName env name = some e.id)) := by
  constructor
  · rintro ⟨m, hm⟩
    refine ⟨?_, ?_, ?_⟩ <;>
      simp [queryEntityByName, queryPropertyByName, queryTypeByName, hm]
  · intro found hok
    constructor
    · intro hall
      have hfind : (found.getD []).find? (nameMatches name) = none := by
        rw [List.find?_eq_none]
        intro x hx
        simp [hall x hx]
      refine ⟨?_, ?_, ?_⟩ <;>
        simp [queryEntityByName, queryPropertyByName, queryTypeByName, hok, hfind]
    · rintro ⟨e, he, hm⟩
      have hsome : ((found.getD []).find? (nameMatches name)).isSome := by
        rw [List.find?_isSome]
        exact ⟨e, he, hm⟩
      obtain ⟨ex, hex⟩ := Option.isSome_iff_exists.mp hsome
      refine ⟨ex, List.mem_of_find?_eq_some hex, List.find?_some hex, ?_, ?_, ?_⟩ <;>
        simp [queryEntityByName, queryPropertyByName, queryTypeByName, hok, hex]

/-- Witness for C10: a failing search makes all three helpers return `none`. -/
theorem queryByName_total_spec_witness :
    queryEntityByName envSearchFail "x" = none ∧
    queryPropertyByName envSearchFail "x" = none ∧
    queryTypeByName envSearchFail "x" = none :=
  (queryByName_total_spec envSearchFail "x").1 ⟨"down", rfl⟩

/-- C5: when the Space Directory query returns no space for the resolved
space id, `publishOps` returns `success:false` with an error containing
"not found", and neither publisher is called and no publish transaction is
attempted in that invocation. -/
theorem publishOps_space_not_found (env : Env) (config : PublishConfig)
    (w : Wallet) (sid : String) (tr1 : List Event)
    (hw : resolveWallet env (config.useSmartAccount.getD true) config.privateKey = Except.ok w)
    (hs : resolveSpaceId env config.spaceId w.address = (Except.ok sid, tr1))
    (hq : env.spaceQuery sid = Except.ok none) :
    (publishOps env config).1.success = false ∧
    (publishOps env config).1.error = some ("Space " ++ sid ++ " not found") ∧
    ("not found").data <:+: ("Space " ++ sid ++ " not found").data ∧
    countEvent (publishOps env config).2 Event.personalPublish = 0 ∧
    countEvent (publishOps env config).2 Event.daoPublish = 0 ∧
    countEvent (publishOps env config).2 Event.publishSubmit = 0 := by
  have hstage : publishStage env config =
      (Except.error ("Space " ++ sid ++ " not found"), tr1 ++ [Event.spaceLookup]) := by
    unfold publishStage
    simp only [hw, hs, hq]
  have he := publishOpsTry_stage_error env config _ (by rw [hstage])
  have htr := publishOps_trace env config
  have htr1 : tr1 = [] ∨ tr1 = [Event.createSpaceSubmit] := by
    have h0 := resolveSpaceId_trace_cases env config.spaceId w.address
    rw [hs] at h0; exact h0
  have htrace : (publishOps env config).2 = tr1 ++ [Event.spaceLookup] := by
    rw [htr, he, hstage]
  refine ⟨?_, ?_, ?_, ?_, ?_, ?_⟩
  · unfold publishOps; rw [he]
  · unfold publishOps; rw [he]
  · have hc : ("not found").data <:+: (" not found").data := by decide
    have h1 := contains_extend_left ("Space " ++ sid).data hc
    simpa [String.data_append] using h1
  · rw [htrace]; rcases htr1 with h | h <;> (rw [h]; decide)
  · rw [htrace]; rcases htr1 with h | h <;> (rw [h]; decide)
  · rw [htrace]; rcases htr1 with h | h <;> (rw [h]; decide)

/-- Witness for C5 at a concrete run whose directory returns no space. -/
theorem publishOps_space_not_found_witness :
    (publishOps envNoSpace cfgSid).1.success = false ∧
    (publishOps envNoSpace cfgSid).1.error = some ("Space " ++ "sidX" ++ " not found") ∧
    ("not found").data <:+: ("Space " ++ "sidX" ++ " not found").data ∧
    countEvent (publishOps envNoSpace cfgSid).2 Event.personalPublish = 0 ∧
    countEvent (publishOps envNoSpace cfgSid).2 Event.daoPublish = 0 ∧
    countEvent (publishOps envNoSpace cfgSid).2 Event.publishSubmit = 0 :=
  publishOps_space_not_found envNoSpace cfgSid wallet0 "sidX" [] rfl rfl rfl

/-- C3: routing on the directory's governance kind string: a `"PERSONAL"`
space makes the router call the personal publisher exactly once and touch no
DAO machinery; any other kind value makes it take the DAO branch (exactly
one caller-space reverse lookup, at most one DAO publish) and never call the
personal publisher. -/
theorem publishOps_routing (env : Env) (config : PublishConfig)
    (w : Wallet) (sid : String) (tr1 : List Event) (space : SpaceInfo)
    (hw : resolveWallet env (config.useSmartAccount.getD true) config.privateKey = Except.ok w)
    (hs : resolveSpaceId env config.spaceId w.address = (Except.ok sid, tr1))
    (hq : env.spaceQuery sid = Except.ok (some space)) :
    (space.type = "PERSONAL" →
      countEvent (publishOps env config).2 Event.personalPublish = 1 ∧
      countEvent (publishOps env config).2 Event.daoPublish = 0 ∧
      countEvent (publishOps env config).2 Event.reverseLookup = 0) ∧
    (space.type ≠ "PERSONAL" →
      countEvent (publishOps env config).2 Event.personalPublish = 0 ∧
      countEvent (publishOps env config).2 Event.reverseLookup = 1 ∧
      countEvent (publishOps env config).2 Event.daoPublish ≤ 1) := by
  have htr1 : tr1 = [] ∨ tr1 = [Event.createSpaceSubmit] := by
    have h0 := resolveSpaceId_trace_cases env config.spaceId w.address
    rw [hs] at h0; exact h0
  have htr := publishOps_trace env config
  constructor
  · intro hty
    have hstage2 : (publishStage env config).2 =
        tr1 ++ [Event.spaceLookup] ++ [Event.personalPublish] := by
      unfold publishStage
      simp only [hw, hs, hq]
      unfold publishBranch
      rw [if_pos hty]
      cases hpe : env.publishEdit config.editName sid config.ops w.address
          (config.network.getD "TESTNET") with
      | error m => simp [hpe]
      | ok edit => simp [hpe]
    have hcount : ∀ e : Event, e ≠ Event.publishSubmit →
        countEvent (publishOps env config).2 e =
        countEvent (tr1 ++ [Event.spaceLookup] ++ [Event.personalPublish]) e := by
      intro e he
      rw [htr, publishOpsTry_trace_counts env config e he, hstage2]
    refine ⟨?_, ?_, ?_⟩ <;>
      · rw [hcount _ (by decide)]
        rcases htr1 with h | h <;> (rw [h]; decide)
  · intro hty
    rcases hdb : daoBranch env config.editName config.ops w.address sid space
        (config.network.getD "TESTNET") with ⟨be, trb⟩
    have htrb : trb = [Event.reverseLookup] ∨
        trb = [Event.reverseLookup, Event.daoPublish] := by
      have h0 := daoBranch_trace_cases env config.editName config.ops w.address sid space
        (config.network.getD "TESTNET")
      rw [hdb] at h0; exact h0
    have hstage2 : (publishStage env config).2 = tr1 ++ [Event.spaceLookup] ++ trb := by
      unfold publishStage
      simp only [hw, hs, hq]
      unfold publishBranch
      rw [if_neg hty, hdb]
      cases be <;> rfl
    have hcount : ∀ e : Event, e ≠ Event.publishSubmit →
        countEvent (publishOps env config).2 e =
        countEvent (tr1 ++ [Event.spaceLookup] ++ trb) e := by
      intro e he
      rw [htr, publishOpsTry_trace_counts env config e he, hstage2]
    refine ⟨?_, ?_, ?_⟩ <;>
      · rw [hcount _ (by decide)]
        rcases htr1 with h | h <;> rcases htrb with h2 | h2 <;> (rw [h, h2]; decide)

/-- Witness for C3: a concrete personal-space run calls the personal
publisher exactly once and no DAO machinery. -/
theorem publishOps_routing_witness :
    countEvent (publishOps envPersonalExisting cfgSid).2 Event.personalPublish = 1 ∧
    countEvent (publishOps envPersonalExisting cfgSid).2 Event.daoPublish = 0 ∧
    countEvent (publishOps envPersonalExisting cfgSid).2 Event.reverseLookup = 0 :=
  (publishOps_routing envPersonalExisting cfgSid wallet0 "sidX" [] spaceP rfl rfl rfl).1 rfl

/-- C4: for a DAO-kind target space, when the caller's resolved personal
space id appears in neither `membersList` nor `editorsList`, `publishOps`
returns `success:false` with an error containing "not a member or editor",
and neither invokes the DAO publisher nor submits any publish transaction in
that invocation. -/
theorem publishOps_dao_unauthorized (env : Env) (config : PublishConfig)
    (w : Wallet) (sid : String) (tr1 : List Event) (space : SpaceInfo)
    (spacesOpt : Option (List SpaceRef)) (callerSpace : SpaceRef)
    (hw : resolveWallet env (config.useSmartAccount.getD true) config.privateKey = Except.ok w)
    (hs : resolveSpaceId env config.spaceId w.address = (Except.ok sid, tr1))
    (hq : env.spaceQuery sid = Except.ok (some space))
    (hty : space.type ≠ "PERSONAL")
    (hrev : env.reverseQuery w.address = Except.ok spacesOpt)
    (hfind : (spacesOpt.getD []).find? (fun s => s.type == "PERSONAL") = some callerSpace)
    (hnotmem : callerSpace.id ∉
      ((space.membersList.getD []) ++ (space.editorsList.getD [])).map Membership.memberSpaceId) :
    (publishOps env config).1.success = false ∧
    (∃ m, (publishOps env config).1.error = some m ∧
      ("not a member or editor").data <:+: m.data) ∧
    countEvent (publishOps env config).2 Event.daoPublish = 0 ∧
    countEvent (publishOps env config).2 Event.publishSubmit = 0 :=
  publishOps_dao_reject_aux env config w sid tr1 space spacesOpt callerSpace
    hw hs hq hty hrev hfind hnotmem

/-- Witness for C4 at a concrete DAO target whose lists hold other ids. -/
theorem publishOps_dao_unauthorized_witness :
    (publishOps envDaoUnauth cfgSid).1.success = false ∧
    (∃ m, (publishOps envDaoUnauth cfgSid).1.error = some m ∧
      ("not a member or editor").data <:+: m.data) ∧
    countEvent (publishOps envDaoUnauth cfgSid).2 Event.daoPublish = 0 ∧
    countEvent (publishOps envDaoUnauth cfgSid).2 Event.publishSubmit = 0 :=
  publishOps_dao_unauthorized envDaoUnauth cfgSid wallet0 "sidX" [] spaceD
    (some [⟨"caller1", "PERSONAL"⟩]) ⟨"caller1", "PERSONAL"⟩
    rfl rfl rfl (by decide) rfl (by decide) (by decide)

/-- C9: for a DAO-branch invocation where the directory returns the target
space with a `null` (or missing) `membersList` or `editorsList`,
`publishOps` substitutes an empty list for each missing list and proceeds
with the membership check, never crashing: the whole call (result and
trace) equals the call against a directory answering with the explicit
defaulted lists; when the caller's id is in the remaining list(s) the DAO
publisher is invoked exactly once; when it is in neither defaulted list the
call deterministically fails with the "not a member or editor" error, with
no DAO publish and no publish transaction — in particular both lists
missing always yields that failure. -/
theorem publishOps_null_membership_lists (env : Env) (config : PublishConfig)
    (w : Wallet) (sid : String) (tr1 : List Event) (space : SpaceInfo)
    (spacesOpt : Option (List SpaceRef)) (callerSpace : SpaceRef)
    (hw : resolveWallet env (config.useSmartAccount.getD true) config.privateKey = Except.ok w)
    (hs : resolveSpaceId env config.spaceId w.address = (Except.ok sid, tr1))
    (hq : env.spaceQuery sid = Except.ok (some space))
    (hty : space.type ≠ "PERSONAL")
    (hrev : env.reverseQuery w.address = Except.ok spacesOpt)
    (hfind : (spacesOpt.getD []).find? (fun s => s.type == "PERSONAL") = some callerSpace)
    (_hnull : space.membersList = none ∨ space.editorsList = none) :
    publishOps env config = publishOps (withDefaultedLists env sid space) config ∧
    (callerSpace.id ∈
        ((space.membersList.getD []) ++ (space.editorsList.getD [])).map Membership.memberSpaceId →
      countEvent (publishOps env config).2 Event.daoPublish = 1) ∧
    (callerSpace.id ∉
        ((space.membersList.getD []) ++ (space.editorsList.getD [])).map Membership.memberSpaceId →
      (publishOps env config).1.success = false ∧
      (∃ m, (publishOps env config).1.error = some m ∧
        ("not a member or editor").data <:+: m.data) ∧
      countEvent (publishOps env config).2 Event.daoPublish = 0 ∧
      countEvent (publishOps env config).2 Event.publishSubmit = 0) ∧
    (space.membersList = none → space.editorsList = none →
      (publishOps env config).1.success = false ∧
      countEvent (publishOps env config).2 Event.daoPublish = 0) := by
  have htr1 : tr1 = [] ∨ tr1 = [Event.createSpaceSubmit] := by
    have h0 := resolveSpaceId_trace_cases env config.spaceId w.address
    rw [hs] at h0; exact h0
  refine ⟨publishOps_defaulted_lists_eq env config w sid tr1 space hw hs hq, ?_, ?_, ?_⟩
  · intro hmem
    have hdb := daoBranch_authorized env config.editName config.ops w.address sid space
      (config.network.getD "TESTNET") spacesOpt callerSpace hrev hfind hmem
    have hstage2 : (publishStage env config).2 =
        tr1 ++ [Event.spaceLookup] ++ [Event.reverseLookup, Event.daoPublish] := by
      unfold publishStage
      simp only [hw, hs, hq]
      unfold publishBranch
      rw [if_neg hty, hdb]
      cases env.proposeEdit config.editName config.ops callerSpace.id
        ("0x" ++ callerSpace.id) ("0x" ++ sid) space.address
        (config.network.getD "TESTNET") <;> rfl
    have hcount : countEvent (publishOps env config).2 Event.daoPublish =
        countEvent (tr1 ++ [Event.spaceLookup] ++ [Event.reverseLookup, Event.daoPublish])
          Event.daoPublish := by
      rw [publishOps_trace env config,
        publishOpsTry_trace_counts env config Event.daoPublish (by decide), hstage2]
    rw [hcount]
    rcases htr1 with h | h <;> (rw [h]; decide)
  · intro hnotmem
    exact publishOps_dao_reject_aux env config w sid tr1 space spacesOpt callerSpace
      hw hs hq hty hrev hfind hnotmem
  · intro hm hedit
    have hrej := publishOps_dao_reject_aux env config w sid tr1 space spacesOpt callerSpace
      hw hs hq hty hrev hfind (by simp [hm, hedit])
    exact ⟨hrej.1, hrej.2.2.1⟩

/-- Witness for C9: with both lists `null` the call deterministically fails
with the authorization error and no DAO publish, and with only the members
list `null` but the caller present in the editors list the DAO publisher is
invoked exactly once. -/
theorem publishOps_null_membership_lists_witness :
    ((publishOps envDaoNoLists cfgSid).1.success = false ∧
      (∃ m, (publishOps envDaoNoLists cfgSid).1.error = some m ∧
        ("not a member or editor").data <:+: m.data) ∧
      countEvent (publishOps envDaoNoLists cfgSid).2 Event.daoPublish = 0 ∧
      countEvent (publishOps envDaoNoLists cfgSid).2 Event.publishSubmit = 0) ∧
    countEvent (publishOps envDaoHalfAuth cfgSid).2 Event.daoPublish = 1 :=
  ⟨(publishOps_null_membership_lists envDaoNoLists cfgSid wallet0 "sidX" [] spaceDnoLists
      (some [⟨"caller1", "PERSONAL"⟩]) ⟨"caller1", "PERSONAL"⟩
      rfl rfl rfl (by decide) rfl (by decide) (Or.inl rfl)).2.2.1 (by decide),
   (publishOps_null_membership_lists envDaoHalfAuth cfgSid wallet0 "sidX" [] spaceDhalf
      (some [⟨"caller1", "PERSONAL"⟩]) ⟨"caller1", "PERSONAL"⟩
      rfl rfl rfl (by decide) rfl (by decide) (Or.inl rfl)).2.1 (by decide)⟩

/-- C7: with `spaceId` omitted and no existing personal space for the
wallet, a successful `publishOps` run first submits the space-creation
transaction (it is the first effect, before any publish), and the returned
`spaceId` equals the registry lookup for the wallet address, converted from
bytes16 hex to a dashless UUID. -/
theorem publishOps_autocreates_personal_space (env : Env) (config : PublishConfig)
    (w : Wallet) (hexStr : String)
    (hsid : config.spaceId = none)
    (hw : resolveWallet env (config.useSmartAccount.getD true) config.privateKey = Except.ok w)
    (hhs : env.hasSpace w.address = Except.ok false)
    (hreg : env.addressToSpaceId w.address = Except.ok hexStr)
    (hsucc : (publishOps env config).1.success = true) :
    (publishOps env config).1.spaceId = some (hexToSpaceId hexStr) ∧
    (publishOps env config).2.head? = some Event.createSpaceSubmit ∧
    Event.publishSubmit ∈ (publishOps env config).2 := by
  rcases hpt : publishOpsTry env config with ⟨e, tr⟩
  rcases e with m | ⟨a, b, c, d⟩
  · exfalso
    unfold publishOps at hsucc
    rw [hpt] at hsucc
    simp at hsucc
  · obtain ⟨edit, addr, trs, hstage, htreq⟩ :=
      publishOpsTry_ok_inversion env config a b c d tr hpt
    obtain ⟨w2, tr1, trb, hw2, haddr, hrs, htrs⟩ :=
      publishStage_ok_inversion env config edit d addr trs hstage
    have hww : w = w2 := by
      rw [hw] at hw2
      exact Except.ok.inj hw2
    rw [hsid] at hrs
    have hrs2 : ensurePersonalSpace env w2.address = (Except.ok d, tr1) := hrs
    obtain ⟨htr1, hex, hreg2, hd⟩ := ensurePersonalSpace_ok_inversion env w2.address d tr1
      (by rw [← hww]; exact hhs) hrs2
    have hhex : hex = hexStr := by
      rw [← hww] at hreg2
      rw [hreg] at hreg2
      exact (Except.ok.inj hreg2).symm
    have htrace : (publishOps env config).2 = tr := by
      rw [publishOps_trace env config, hpt]
    refine ⟨?_, ?_, ?_⟩
    · unfold publishOps
      rw [hpt, hd, hhex]
    · rw [htrace, htreq, htrs, htr1]
      rfl
    · rw [htrace, htreq]
      exact List.mem_append_right _ (List.mem_singleton.mpr rfl)

/-- Witness for C7 on the happy-path environment with no prior space. -/
theorem publishOps_autocreates_personal_space_witness :
    (publishOps envBase cfg0).1.spaceId =
      some (hexToSpaceId "0xAABBCCDDEEFF00112233445566778899") ∧
    (publishOps envBase cfg0).2.head? = some Event.createSpaceSubmit ∧
    Event.publishSubmit ∈ (publishOps envBase cfg0).2 :=
  publishOps_autocreates_personal_space envBase cfg0 wallet0
    "0xAABBCCDDEEFF00112233445566778899" rfl rfl rfl rfl (by decide)

end GeoSdk
